import Mathlib

/-!
Verification of the serial command/response utility (src/mcuxeq.c) against
its natural-language specification.

The development is a shallow embedding of the C source:
bytes are `Nat` (carriage return = 13, newline = 10), the incoming serial
stream is a `List Nat`, and the time-dependent primitives (`gettimeofday`,
`poll`, `timed_out` results inside the two phase loops) are made explicit:
`gettimeofday` results become `Timeval` arguments, the readiness wait of
`poll(2)` is modelled by the delay until the device becomes readable, and
each call the session loops make to `timed_out` reads one value of a
Boolean oracle `tmo : Nat -> Bool` (the value `timed_out` would return at
that moment; for a budget `<= 0` the oracle is constantly `false`, since
`timed_out` then returns 0 unconditionally).
-/

namespace Mcuxeq

/-! ## Constants of src/mcuxeq.c (lines 33-39) -/

def LINE_SIZE : Nat := 1024

def RETRY_MS : Nat := 200

/-- Linux errno value for "Device or resource busy". -/
def EBUSY : Nat := 16

/-- Linux errno value for "Resource temporarily unavailable" (= EWOULDBLOCK). -/
def EAGAIN : Nat := 11

/-! ## Timeout Clock: timeout_init / timed_out (src lines 100-139) -/

/-- `struct timeval`: seconds and microseconds, both signed. -/
structure Timeval where
  sec : Int
  usec : Int
deriving DecidableEq, Repr

/-- Two's-complement wraparound of a 32-bit signed `int`, the behaviour of
`opt_timeout * 1000` on the reference platform (the C standard leaves signed
overflow undefined; gcc/x86-64 wraps). -/
def wrap32 (x : Int) : Int :=
  (x + 2 ^ 31) % 2 ^ 32 - 2 ^ 31

/-- timeout_init (src lines 111-126): for a positive budget, add
`opt_timeout * 1000` microseconds (a 32-bit `int` product) to the current
time and carry microseconds at one million into the seconds field with C's
`div` (truncating division; `div` takes `int` arguments, so the 64-bit
`tv_usec` value is first converted to 32 bits — a second wraparound).
For a budget `<= 0` the C function returns without writing `*tv`; the
returned deadline is never read in that case (see timed_out), so the model
returns `now` unchanged. -/
def timeout_init (opt_timeout : Int) (now : Timeval) : Timeval :=
  if opt_timeout ≤ 0 then now
  else
    let u : Int := now.usec + wrap32 (opt_timeout * 1000)
    if 1000000 ≤ u then
      let v : Int := wrap32 u
      { sec := now.sec + v.tdiv 1000000, usec := v.tmod 1000000 }
    else
      { sec := now.sec, usec := u }

/-- timed_out (src lines 128-139): `false` whenever the configured budget is
`<= 0`; otherwise `now` strictly after the deadline `tv`. -/
def timed_out (opt_timeout : Int) (tv now : Timeval) : Bool :=
  if opt_timeout ≤ 0 then false
  else decide (now.sec > tv.sec) ||
       (decide (now.sec = tv.sec) && decide (now.usec > tv.usec))

/-! ## Timed Byte Reader: the refill step of ser_getc (src lines 197-241) -/

inductive PollOutcome where
  | ready
  | timedOut
  | blocksForever
deriving DecidableEq, Repr

/-- Model of `poll(&pfd, 1, timeout_ms)` on one POLLIN descriptor.
`avail` is the wall-clock delay in milliseconds until the descriptor becomes
readable (`none` if it never does). Per POSIX: a negative timeout waits
indefinitely, a timeout of 0 returns immediately (ready only if data is
already available), a positive timeout waits up to that many milliseconds. -/
def poll1 (timeout_ms : Int) (avail : Option Nat) : PollOutcome :=
  match avail with
  | none => if timeout_ms < 0 then .blocksForever else .timedOut
  | some d =>
    if timeout_ms < 0 then .ready
    else if (d : Int) ≤ timeout_ms then .ready
    else .timedOut

inductive RefillResult where
  | ok (b : Nat)
  | fatalTimeout
  | fatalNoData
  | hang
deriving DecidableEq, Repr

/-- The refill step of ser_getc (src lines 205-238), taken when the buffered
bytes are exhausted: poll the descriptor with the raw `opt_timeout` value; a
poll timeout is the fatal "Timeout" diagnostic, a zero-byte read the fatal
"No data" diagnostic, otherwise the first byte read is returned. `incoming`
is the byte sequence the device delivers once readable. -/
def ser_getc_refill (opt_timeout : Int) (avail : Option Nat)
    (incoming : List Nat) : RefillResult :=
  match poll1 opt_timeout avail with
  | .blocksForever => .hang
  | .timedOut => .fatalTimeout
  | .ready =>
    match incoming with
    | [] => .fatalNoData
    | b :: _ => .ok b

/-! ## Line Assembler / Prompt Matcher: ser_readline (src lines 243-269) -/

/-- Carriage returns are byte 13; ser_readline discards them before storing. -/
def stripCR (l : List Nat) : List Nat :=
  l.filter (fun c => c ≠ 13)

inductive ReadResult where
  | completedLine (l : List Nat) (rest : List Nat)
  | promptReached (rest : List Nat)
  | fatalTooLong
  | fatalNoData
deriving DecidableEq, Repr

/-- ser_readline (src lines 243-269) over an explicit byte stream `S`, with
the accumulated line `acc` (the static `line[]` contents, `n = acc.length`).
Each iteration fetches a byte (skipping carriage returns), fails fatally if
`n >= LINE_SIZE - 1` before storing, appends the byte, tests the accumulated
line against the prompt matcher `P` (regexec, `0` = match), returns
`promptReached` on a match, and returns the completed line when the stored
byte was a newline. An exhausted stream is the reader's fatal exit
(ser_getc's "Timeout"/"No data"). `rest` is the unconsumed stream. -/
def ser_readline (P : List Nat → Bool) (acc : List Nat) :
    List Nat → ReadResult
  | [] => .fatalNoData
  | c :: rest =>
    if c = 13 then ser_readline P acc rest
    else if LINE_SIZE - 1 ≤ acc.length then .fatalTooLong
    else
      if P (acc ++ [c]) then .promptReached rest
      else if c = 10 then .completedLine (acc ++ [c]) rest
      else ser_readline P (acc ++ [c]) rest

/-- `[[:alnum:]]` in the C locale. -/
def isAlnumByte (c : Nat) : Bool :=
  (48 ≤ c && c ≤ 57) || (65 ≤ c && c ≤ 90) || (97 ≤ c && c ≤ 122)

/-- The default prompt regex `"^[[:alnum:]]*[#$>] $"` (src line 33), compiled
with REG_NOSUB: since it is anchored at both ends, regexec succeeds exactly
when the whole line is alphanumerics, one of `#` (35) `$` (36) `>` (62), and
a space (32). -/
def default_prompt_matches (l : List Nat) : Bool :=
  match l.reverse with
  | c2 :: c1 :: rest =>
    c2 == 32 && (c1 == 35 || c1 == 36 || c1 == 62) && rest.all isAlnumByte
  | _ => false

/-! ## Command payload: join_words (src lines 271-300) -/

/-- The joining loop of join_words: words separated by single spaces. -/
def joinW : List (List Nat) → List Nat
  | [] => []
  | [w] => w
  | w :: w2 :: ws => w ++ 32 :: joinW (w2 :: ws)

/-- join_words (src lines 271-300): the command words joined by single
spaces with a trailing newline appended (the NUL terminator is not part of
the `len` the caller writes). -/
def join_words (words : List (List Nat)) : List Nat :=
  joinW words ++ [10]

/-! ## Device Acquirer: the retry loop of ser_open (src lines 141-195)

The open/flock attempts are environment events: `openR k` is the result of
the `k`-th `open` call (`none` = a descriptor, `some e` = failure with
errno `e`), `lockR k` the result of the `k`-th `flock` attempt, and `tmo k`
what `timed_out` returns at the `k`-th failed iteration. `fuel` bounds the
unrolling of the unbounded C loop (`.spin` = fuel ran out, i.e. the loop is
still retrying). `slept` accumulates the milliseconds of `usleep` calls. -/

/-- The errno left by the `k`-th attempt of the loop body (src lines
157-159): the open's errno if open failed; otherwise, when `force` is not
set, the flock's result (`flock` is short-circuited away entirely when
`opt_force` is set). `none` means the attempt broke out of the loop. -/
def attempt_err (force : Bool) (openR lockR : Nat → Option Nat)
    (k : Nat) : Option Nat :=
  match openR k with
  | some e => some e
  | none => if force then none else lockR k

inductive OpenResult where
  | success (attempts : Nat) (slept_ms : Nat)
  | fatal (err : Nat)
  | spin
deriving DecidableEq, Repr

/-- The retry loop of ser_open (src lines 156-169): on a failed attempt,
fail fatally unless the errno is EBUSY or EAGAIN and the deadline has not
expired; otherwise sleep RETRY_MS milliseconds and retry. -/
def ser_open_loop (force : Bool) (tmo : Nat → Bool)
    (openR lockR : Nat → Option Nat) : Nat → Nat → Nat → OpenResult
  | 0, _, _ => .spin
  | fuel + 1, k, slept =>
    match attempt_err force openR lockR k with
    | none => .success k slept
    | some e =>
      if (e != EBUSY && e != EAGAIN) || tmo k then .fatal e
      else ser_open_loop force tmo openR lockR fuel (k + 1) (slept + RETRY_MS)

/-! ## Session Protocol: the two phase loops of main (src lines 380-408) -/

inductive EchoResult where
  | found (rest : List Nat)
  | notFound
  | tooLong
  | noData
  | spin
deriving DecidableEq, Repr

/-- The echo-wait loop (src lines 381-392): read a line; a completed line
containing the command string (strstr) breaks out; otherwise a NULL line
(prompt reached) or an expired deadline is the fatal "Command echo not
found"; any other line is discarded and the loop continues. `tmo k` is the
value `timed_out(&tv)` returns at the `k`-th check (timed_out is reached
only for a non-NULL, non-matching line, by `||` short-circuit). -/
def echoPhase (P : List Nat → Bool) (cmd : List Nat) (tmo : Nat → Bool) :
    Nat → List Nat → Nat → EchoResult
  | 0, _, _ => .spin
  | fuel + 1, S, k =>
    match ser_readline P [] S with
    | .completedLine l rest =>
      if cmd <:+: l then .found rest
      else if tmo k then .notFound
      else echoPhase P cmd tmo fuel rest (k + 1)
    | .promptReached _ => .notFound
    | .fatalTooLong => .tooLong
    | .fatalNoData => .noData

inductive Diag where
  | echoNotFound
  | lineTooLong
  | noData
  | responseTooLong
  | spin
deriving DecidableEq, Repr

/-- The response-collect loop (src lines 396-408): read a line; a NULL line
(prompt reached) ends the run successfully; an expired deadline before the
line is printed is the fatal "Response too long"; otherwise the line is
printed and the loop continues. Returns the diagnostic (`none` = success)
and the lines printed to standard output, in order. -/
def responsePhase (P : List Nat → Bool) (tmo : Nat → Bool) :
    Nat → List Nat → Nat → Option Diag × List (List Nat)
  | 0, _, _ => (some .spin, [])
  | fuel + 1, S, k =>
    match ser_readline P [] S with
    | .promptReached _ => (none, [])
    | .completedLine l rest =>
      if tmo k then (some .responseTooLong, [])
      else
        let r := responsePhase P tmo fuel rest (k + 1)
        (r.1, l :: r.2)
    | .fatalTooLong => (some .lineTooLong, [])
    | .fatalNoData => (some .noData, [])

/-- The session from the successful write of the command onwards (src lines
380-413): the echo-wait phase followed by the response-collect phase, each
with its own freshly armed deadline oracle. The result is the process
outcome: `(none, out)` is an exit status of 0 with exactly the lines `out`
printed to standard output; `(some d, out)` is a non-zero exit with
diagnostic `d` after printing `out`. -/
def session_run (P : List Nat → Bool) (cmd : List Nat)
    (to1 to2 : Nat → Bool) (fuel : Nat) (S : List Nat) :
    Option Diag × List (List Nat) :=
  match echoPhase P cmd to1 fuel S 0 with
  | .found rest => responsePhase P to2 fuel rest 0
  | .notFound => (some .echoNotFound, [])
  | .tooLong => (some .lineTooLong, [])
  | .noData => (some .noData, [])
  | .spin => (some .spin, [])

/-! ## Basic facts about stripCR -/

theorem stripCR_nil : stripCR [] = [] := rfl

theorem stripCR_cons_cr (l : List Nat) : stripCR (13 :: l) = stripCR l := by
  simp [stripCR]

theorem stripCR_cons_ne (c : Nat) (l : List Nat) (h : c ≠ 13) :
    stripCR (c :: l) = c :: stripCR l := by
  simp [stripCR, h]

theorem not_cr_of_mem_stripCR {c : Nat} {l : List Nat}
    (h : c ∈ stripCR l) : c ≠ 13 := by
  simp [stripCR] at h
  exact h.2

/-! ## Inversion lemmas for ser_readline -/

/-- Inversion of a `promptReached` result: a prefix `pre` of the stream was
consumed, its CR-stripped content appended to the accumulator matched the
prompt, and no earlier (shorter, nonempty-growth) accumulation matched. -/
theorem ser_readline_prompt_inv (P : List Nat → Bool) :
    ∀ (S acc rest : List Nat),
      ser_readline P acc S = .promptReached rest →
      ∃ pre, S = pre ++ rest ∧ stripCR pre ≠ [] ∧
        P (acc ++ stripCR pre) = true ∧
        ∀ q, q <+: pre → q ≠ pre → stripCR q ≠ [] →
          P (acc ++ stripCR q) = false := by
  intro S
  induction S with
  | nil =>
    intro acc rest h
    simp [ser_readline] at h
  | cons c S ih =>
    intro acc rest h
    rw [ser_readline] at h
    by_cases hc : c = 13
    · subst hc
      rw [if_pos rfl] at h
      obtain ⟨pre, hS, hne, hP, hq⟩ := ih acc rest h
      refine ⟨13 :: pre, by simp [hS], by simpa [stripCR_cons_cr] using hne,
        by simpa [stripCR_cons_cr] using hP, ?_⟩
      intro q hq1 hq2 hq3
      match q with
      | [] => simp [stripCR_nil] at hq3
      | d :: q' =>
        obtain ⟨hd, hq'⟩ := List.cons_prefix_cons.mp hq1
        subst hd
        rw [stripCR_cons_cr] at hq3 ⊢
        exact hq q' hq' (fun hcon => hq2 (by rw [hcon])) hq3
    · rw [if_neg hc] at h
      by_cases hlen : LINE_SIZE - 1 ≤ acc.length
      · rw [if_pos hlen] at h
        exact absurd h (by simp)
      · rw [if_neg hlen] at h
        by_cases hP : P (acc ++ [c]) = true
        · rw [if_pos hP] at h
          injection h with hSr
          subst hSr
          refine ⟨[c], rfl, by simp [stripCR_cons_ne c [] hc],
            by simpa [stripCR_cons_ne c [] hc, stripCR_nil] using hP, ?_⟩
          intro q hq1 hq2 hq3
          match q with
          | [] => simp [stripCR_nil] at hq3
          | d :: q' =>
            obtain ⟨hd, hq'⟩ := List.cons_prefix_cons.mp hq1
            subst hd
            have : q' = [] := List.prefix_nil.mp hq'
            subst this
            exact absurd rfl hq2
        · rw [if_neg hP] at h
          by_cases h10 : c = 10
          · rw [if_pos h10] at h
            exact absurd h (by simp)
          · rw [if_neg h10] at h
            obtain ⟨pre, hS, hne, hPp, hq⟩ := ih (acc ++ [c]) rest h
            refine ⟨c :: pre, by simp [hS], by simp [stripCR_cons_ne c _ hc], ?_, ?_⟩
            · rw [stripCR_cons_ne _ _ hc]
              rw [List.append_assoc] at hPp
              simpa using hPp
            · intro q hq1 hq2 hq3
              match q with
              | [] => simp [stripCR_nil] at hq3
              | d :: q' =>
                obtain ⟨hd, hq'⟩ := List.cons_prefix_cons.mp hq1
                subst hd
                rw [stripCR_cons_ne _ _ hc] at hq3 ⊢
                by_cases hq'e : stripCR q' = []
                · rw [hq'e]
                  simpa using hP
                · have hqne : q' ≠ pre := fun hcon => hq2 (by rw [hcon])
                  have := hq q' hq' hqne hq'e
                  rw [List.append_assoc] at this
                  simpa using this

/-- Inversion of a `completedLine` result: the returned line is the
accumulator followed by the CR-stripped consumed prefix; it ends in the
newline that completed it, contains no earlier newline (beyond the
accumulator), every accumulation tested on the way — the full line
included — failed the prompt test, and the line fits the buffer. -/
theorem ser_readline_line_inv (P : List Nat → Bool) :
    ∀ (S acc l rest : List Nat),
      ser_readline P acc S = .completedLine l rest →
      ∃ pre, S = pre ++ rest ∧ stripCR pre ≠ [] ∧
        l = acc ++ stripCR pre ∧
        (stripCR pre).getLast? = some 10 ∧
        10 ∉ (stripCR pre).dropLast ∧
        (∀ k, 1 ≤ k → k ≤ (stripCR pre).length →
          P (acc ++ (stripCR pre).take k) = false) ∧
        l.length ≤ LINE_SIZE - 1 := by
  intro S
  induction S with
  | nil =>
    intro acc l rest h
    simp [ser_readline] at h
  | cons c S ih =>
    intro acc l rest h
    rw [ser_readline] at h
    by_cases hc : c = 13
    · subst hc
      rw [if_pos rfl] at h
      obtain ⟨pre, hS, hne, hl, hlast, hnl, hq, hlen⟩ := ih acc l rest h
      exact ⟨13 :: pre, by simp [hS], by simpa [stripCR_cons_cr] using hne,
        by simpa [stripCR_cons_cr] using hl,
        by simpa [stripCR_cons_cr] using hlast,
        by simpa [stripCR_cons_cr] using hnl,
        by simpa [stripCR_cons_cr] using hq, hlen⟩
    · rw [if_neg hc] at h
      by_cases hlen : LINE_SIZE - 1 ≤ acc.length
      · rw [if_pos hlen] at h
        exact absurd h (by simp)
      · rw [if_neg hlen] at h
        by_cases hP : P (acc ++ [c]) = true
        · rw [if_pos hP] at h
          exact absurd h (by simp)
        · rw [if_neg hP] at h
          by_cases h10 : c = 10
          · subst h10
            rw [if_pos rfl] at h
            injection h with hl hSr
            subst hSr
            subst hl
            have hsp : stripCR [10] = [10] := stripCR_cons_ne 10 [] hc
            refine ⟨[10], rfl, by rw [hsp]; simp, by rw [hsp],
              by rw [hsp]; simp, by rw [hsp]; simp, ?_, ?_⟩
            · intro k hk1 hk2
              rw [hsp] at hk2 ⊢
              simp at hk2
              have hk : k = 1 := le_antisymm hk2 hk1
              subst hk
              simpa using hP
            · simp only [LINE_SIZE] at hlen ⊢
              simp only [List.length_append, List.length_cons, List.length_nil]
              omega
          · rw [if_neg h10] at h
            obtain ⟨pre, hS, hne, hl, hlast, hnl, hq, hlen'⟩ := ih (acc ++ [c]) l rest h
            obtain ⟨x, xs, hx⟩ : ∃ x xs, stripCR pre = x :: xs := by
              cases hsp : stripCR pre with
              | nil => exact absurd hsp hne
              | cons x xs => exact ⟨x, xs, rfl⟩
            refine ⟨c :: pre, by simp [hS], by simp [stripCR_cons_ne c _ hc], ?_, ?_, ?_, ?_, hlen'⟩
            · rw [stripCR_cons_ne _ _ hc]
              rw [List.append_assoc] at hl
              simpa using hl
            · rw [stripCR_cons_ne _ _ hc, hx]
              rw [hx] at hlast
              rw [List.getLast?_cons_cons]
              exact hlast
            · rw [stripCR_cons_ne _ _ hc, hx]
              rw [hx] at hlast hnl
              intro hmem
              rw [List.dropLast_cons₂] at hmem
              rcases List.mem_cons.mp hmem with h1 | h2
              · exact h10 h1.symm
              · exact hnl h2
            · intro k hk1 hk2
              rw [stripCR_cons_ne _ _ hc] at hk2 ⊢
              match k, hk1 with
              | 1, _ =>
                simp only [List.take_succ_cons, List.take_zero]
                simpa using hP
              | (j + 2), _ =>
                simp only [List.take_succ_cons]
                have := hq (j + 1) (by omega) (by simpa using hk2)
                rw [List.append_assoc] at this
                simpa using this

/-! ## Constructive runs of ser_readline -/

/-- Feeding ser_readline a CR-free, newline-terminated line that fits the
buffer and never matches the prompt returns exactly that line (with its
trailing newline) and leaves the remaining stream untouched. -/
theorem ser_readline_completes (P : List Nat → Bool) :
    ∀ (pre acc rest : List Nat),
      13 ∉ pre → pre.getLast? = some 10 → 10 ∉ pre.dropLast →
      acc.length + pre.length ≤ LINE_SIZE - 1 →
      (∀ k, 1 ≤ k → k ≤ pre.length → P (acc ++ pre.take k) = false) →
      ser_readline P acc (pre ++ rest) = .completedLine (acc ++ pre) rest := by
  intro pre
  induction pre with
  | nil =>
    intro acc rest _ hlast _ _ _
    simp at hlast
  | cons c pre ih =>
    intro acc rest hcr hlast hnl hlen hq
    have hc13 : c ≠ 13 := fun h => hcr (by simp [h])
    rw [List.cons_append, ser_readline, if_neg hc13]
    have hlen' : ¬(LINE_SIZE - 1 ≤ acc.length) := by
      simp only [List.length_cons] at hlen
      omega
    rw [if_neg hlen']
    have hP1 : P (acc ++ [c]) = false := by
      have := hq 1 le_rfl (by simp)
      simpa using this
    rw [if_neg (by simp [hP1])]
    cases pre with
    | nil =>
      have hc10 : c = 10 := by simpa using hlast
      subst hc10
      rw [if_pos rfl]
      simp
    | cons p ps =>
      have hc10 : c ≠ 10 := by
        intro h
        exact hnl (by rw [List.dropLast_cons₂]; simp [h])
      rw [if_neg hc10]
      have := ih (acc ++ [c]) rest
        (fun h => hcr (List.mem_cons_of_mem c h))
        (by rw [← List.getLast?_cons_cons (a := c)]; exact hlast)
        (fun h => hnl (by rw [List.dropLast_cons₂]; exact List.mem_cons_of_mem c h))
        (by simp only [List.length_append, List.length_cons, List.length_nil] at hlen ⊢; omega)
        (by
          intro k hk1 hk2
          have := hq (k + 1) (by omega) (by simpa using hk2)
          simpa using this)
      simpa using this

/-- Feeding ser_readline a CR-free chunk whose full content matches the
prompt while every proper accumulation does not (and which contains no
newline before its last byte) reports `promptReached` and discards the
accumulated bytes. -/
theorem ser_readline_prompts (P : List Nat → Bool) :
    ∀ (pre acc rest : List Nat),
      pre ≠ [] → 13 ∉ pre → 10 ∉ pre.dropLast →
      acc.length + pre.length ≤ LINE_SIZE - 1 →
      P (acc ++ pre) = true →
      (∀ k, 1 ≤ k → k < pre.length → P (acc ++ pre.take k) = false) →
      ser_readline P acc (pre ++ rest) = .promptReached rest := by
  intro pre
  induction pre with
  | nil =>
    intro acc rest hne
    exact absurd rfl hne
  | cons c pre ih =>
    intro acc rest _ hcr hnl hlen hP hq
    have hc13 : c ≠ 13 := fun h => hcr (by simp [h])
    rw [List.cons_append, ser_readline, if_neg hc13]
    have hlen' : ¬(LINE_SIZE - 1 ≤ acc.length) := by
      simp only [List.length_cons] at hlen
      omega
    rw [if_neg hlen']
    cases pre with
    | nil =>
      rw [if_pos (by simpa using hP)]
      simp
    | cons p ps =>
      have hP1 : P (acc ++ [c]) = false := by
        have := hq 1 le_rfl (by simp)
        simpa using this
      rw [if_neg (by simp [hP1])]
      have hc10 : c ≠ 10 := by
        intro h
        exact hnl (by rw [List.dropLast_cons₂]; simp [h])
      rw [if_neg hc10]
      have := ih (acc ++ [c]) rest (by simp)
        (fun h => hcr (List.mem_cons_of_mem c h))
        (fun h => hnl (by rw [List.dropLast_cons₂]; exact List.mem_cons_of_mem c h))
        (by simp only [List.length_append, List.length_cons, List.length_nil] at hlen ⊢; omega)
        (by simpa using hP)
        (by
          intro k hk1 hk2
          have := hq (k + 1) (by omega) (by simpa using hk2)
          simpa using this)
      simpa using this

/-- If the stream still supplies retained (non-CR) bytes once the
accumulated line is full — no newline and no prompt match arrive among the
first `LINE_SIZE - 1` retained bytes, and at least `LINE_SIZE` retained
bytes are available — ser_readline fails fatally with "Line too long". -/
theorem ser_readline_too_long (P : List Nat → Bool) :
    ∀ (S acc : List Nat),
      acc.length ≤ LINE_SIZE - 1 →
      (∀ k, acc.length < k → k ≤ LINE_SIZE - 1 →
        P ((acc ++ stripCR S).take k) = false) →
      10 ∉ (stripCR S).take (LINE_SIZE - 1 - acc.length) →
      LINE_SIZE ≤ acc.length + (stripCR S).length →
      ser_readline P acc S = .fatalTooLong := by
  intro S
  induction S with
  | nil =>
    intro acc h1 _ _ h4
    rw [stripCR_nil] at h4
    simp only [LINE_SIZE] at h1 h4
    simp at h4
    omega
  | cons c S ih =>
    intro acc h1 h2 h3 h4
    rw [ser_readline]
    by_cases hc : c = 13
    · subst hc
      rw [if_pos rfl]
      exact ih acc h1 (by rw [← stripCR_cons_cr S]; exact h2)
        (by rw [← stripCR_cons_cr S]; exact h3)
        (by rw [← stripCR_cons_cr S]; exact h4)
    · rw [if_neg hc]
      by_cases hfull : LINE_SIZE - 1 ≤ acc.length
      · rw [if_pos hfull]
      · rw [if_neg hfull]
        have hsc : stripCR (c :: S) = c :: stripCR S := stripCR_cons_ne _ _ hc
        have hcmem : c ∈ (stripCR (c :: S)).take (LINE_SIZE - 1 - acc.length) := by
          rw [hsc]
          have : ∃ m, LINE_SIZE - 1 - acc.length = m + 1 := by
            simp only [LINE_SIZE] at hfull ⊢
            exact ⟨1024 - 1 - acc.length - 1, by omega⟩
          obtain ⟨m, hm⟩ := this
          rw [hm, List.take_succ_cons]
          exact List.mem_cons_self c _
        have hc10 : c ≠ 10 := fun h => h3 (h ▸ hcmem)
        have hP1 : P (acc ++ [c]) = false := by
          have h := h2 (acc.length + 1) (by omega)
            (by simp only [LINE_SIZE] at hfull ⊢; omega)
          rw [hsc] at h
          rw [show (acc ++ c :: stripCR S).take (acc.length + 1) = acc ++ [c] by
            rw [show acc ++ c :: stripCR S = (acc ++ [c]) ++ stripCR S by simp,
              List.take_append_eq_append_take,
              List.take_of_length_le (by simp)]
            simp] at h
          exact h
        rw [if_neg (by simp [hP1]), if_neg hc10]
        apply ih (acc ++ [c])
        · simp only [List.length_append, List.length_cons, List.length_nil, LINE_SIZE] at hfull ⊢
          omega
        · intro k hk1 hk2
          have := h2 k (by simp at hk1; omega) hk2
          rw [hsc] at this
          rw [show (acc ++ [c]) ++ stripCR S = acc ++ c :: stripCR S by simp]
          exact this
        · intro hmem
          apply h3
          rw [hsc]
          have : ∃ m, LINE_SIZE - 1 - acc.length = m + 1 ∧
              m = LINE_SIZE - 1 - (acc ++ [c]).length := by
            simp only [LINE_SIZE, List.length_append, List.length_cons,
              List.length_nil] at hfull ⊢
            exact ⟨1024 - 1 - acc.length - 1, by omega, by omega⟩
          obtain ⟨m, hm, hm'⟩ := this
          rw [hm, List.take_succ_cons]
          rw [← hm'] at hmem
          exact List.mem_cons_of_mem c hmem
        · rw [hsc] at h4
          simp only [List.length_append, List.length_cons, List.length_nil] at h4 ⊢
          omega

/-! ## Carriage returns are transparent to ser_readline -/

/-- The outcome of ser_readline with the unconsumed remainder forgotten. -/
inductive ReadCore where
  | line (l : List Nat)
  | prompt
  | tooLong
  | noData
deriving DecidableEq, Repr

def dropRest : ReadResult → ReadCore
  | .completedLine l _ => .line l
  | .promptReached _ => .prompt
  | .fatalTooLong => .tooLong
  | .fatalNoData => .noData

/-- Deleting every carriage return from the stream leaves the result of
ser_readline unchanged (up to the unconsumed remainder): CRs are never
stored, never matched, never counted. -/
theorem ser_readline_stripCR (P : List Nat → Bool) :
    ∀ (S acc : List Nat),
      dropRest (ser_readline P acc S) =
        dropRest (ser_readline P acc (stripCR S)) := by
  intro S
  induction S with
  | nil =>
    intro acc
    rw [stripCR_nil]
  | cons c S ih =>
    intro acc
    by_cases hc : c = 13
    · subst hc
      rw [stripCR_cons_cr, ser_readline, if_pos rfl]
      exact ih acc
    · rw [stripCR_cons_ne _ _ hc, ser_readline, ser_readline, if_neg hc, if_neg hc]
      by_cases hfull : LINE_SIZE - 1 ≤ acc.length
      · rw [if_pos hfull, if_pos hfull]
      · rw [if_neg hfull, if_neg hfull]
        by_cases hP : P (acc ++ [c]) = true
        · rw [if_pos hP, if_pos hP]
          rfl
        · rw [if_neg hP, if_neg hP]
          by_cases h10 : c = 10
          · rw [if_pos h10, if_pos h10]
            rfl
          · rw [if_neg h10, if_neg h10]
            exact ih (acc ++ [c])

/-! ## Facts about join_words -/

theorem ten_not_mem_joinW :
    ∀ (words : List (List Nat)), (∀ w ∈ words, (10 : Nat) ∉ w) →
      (10 : Nat) ∉ joinW words := by
  intro words
  induction words with
  | nil => simp [joinW]
  | cons w ws ih =>
    intro h
    cases ws with
    | nil => simpa [joinW] using h w (by simp)
    | cons w2 ws2 =>
      rw [joinW]
      intro hmem
      rcases List.mem_append.mp hmem with h1 | h2
      · exact h w (by simp) h1
      · rcases List.mem_cons.mp h2 with h3 | h4
        · norm_num at h3
        · exact ih (fun v hv => h v (List.mem_cons_of_mem _ hv)) h4

/-- For two newline-terminated strings whose bodies are newline-free, being
a contiguous substring (strstr) is the same as being a suffix: the newline
of the needle can only line up with the final newline of the haystack. -/
theorem infix_iff_suffix_newline (A B : List Nat)
    (hB : (10 : Nat) ∉ B) :
    ((A ++ [10]) <:+: (B ++ [10])) ↔ ((A ++ [10]) <:+ (B ++ [10])) := by
  constructor
  · rintro ⟨s, t, hst⟩
    rcases List.eq_nil_or_concat t with rfl | ⟨t', x, rfl⟩
    · exact ⟨s, by simpa using hst⟩
    · exfalso
      have hst' : (s ++ (A ++ [10]) ++ t') ++ [x] = B ++ [10] := by
        rw [← hst]
        simp
      obtain ⟨h1, _⟩ := List.append_inj' hst' (by simp)
      apply hB
      rw [← h1]
      simp
  · exact List.IsSuffix.isInfix

/-! ## The ser_open retry loop -/

/-- Unrolling the retry loop across `j` busy, not-yet-expired attempts:
each one sleeps RETRY_MS milliseconds and moves to the next attempt. -/
theorem ser_open_loop_busy_shift (tmo : Nat → Bool)
    (openR lockR : Nat → Option Nat) :
    ∀ (j k slept fuel : Nat),
      (∀ i, i < j → ∃ e, attempt_err false openR lockR (k + i) = some e ∧
        (e = EBUSY ∨ e = EAGAIN)) →
      (∀ i, i < j → tmo (k + i) = false) →
      j < fuel →
      ser_open_loop false tmo openR lockR fuel k slept =
        ser_open_loop false tmo openR lockR (fuel - j) (k + j)
          (slept + j * RETRY_MS) := by
  intro j
  induction j with
  | zero =>
    intro k slept fuel _ _ _
    simp
  | succ j ih =>
    intro k slept fuel hbusy htmo hfuel
    obtain ⟨f, rfl⟩ : ∃ f, fuel = f + 1 := ⟨fuel - 1, by omega⟩
    rw [ser_open_loop]
    obtain ⟨e, he, hbe⟩ := hbusy 0 (by omega)
    rw [show k + 0 = k from rfl] at he
    simp only [he]
    have htk : tmo k = false := by
      have := htmo 0 (by omega)
      rwa [show k + 0 = k from rfl] at this
    rw [if_neg (by rcases hbe with h | h <;> simp [htk, h, EBUSY, EAGAIN])]
    have := ih (k + 1) (slept + RETRY_MS) f
      (fun i hi => by
        have := hbusy (i + 1) (by omega)
        rwa [show k + (i + 1) = (k + 1) + i by omega] at this)
      (fun i hi => by
        have := htmo (i + 1) (by omega)
        rwa [show k + (i + 1) = (k + 1) + i by omega] at this)
      (by omega)
    rw [this, show f - j = f + 1 - (j + 1) by omega,
      show (k + 1) + j = k + (j + 1) by omega,
      show slept + RETRY_MS + j * RETRY_MS = slept + (j + 1) * RETRY_MS by ring]

/-- With `force` set, the loop never consults the flock results at all. -/
theorem ser_open_loop_force_no_flock (tmo : Nat → Bool)
    (openR lockR lockR' : Nat → Option Nat) :
    ∀ (fuel k slept : Nat),
      ser_open_loop true tmo openR lockR fuel k slept =
        ser_open_loop true tmo openR lockR' fuel k slept := by
  intro fuel
  induction fuel with
  | zero => intro k slept; rfl
  | succ f ih =>
    intro k slept
    rw [ser_open_loop, ser_open_loop]
    have hsame : attempt_err true openR lockR k = attempt_err true openR lockR' k := by
      unfold attempt_err
      cases openR k <;> rfl
    rw [hsame]
    cases attempt_err true openR lockR' k with
    | none => rfl
    | some e =>
      dsimp only
      cases hcnd : ((e != EBUSY && e != EAGAIN) || tmo k) with
      | false =>
        rw [if_neg (by simp), if_neg (by simp)]
        exact ih (k + 1) (slept + RETRY_MS)
      | true => rfl

/-! ## Claim C1 -/

/-- C1 as stated is false: with the budget configured to exactly 0 —
which is `<= 0` — the per-chunk readiness wait of the byte reader calls
`poll(fd, 1, 0)`, which returns immediately; if the next byte is not
already available (here it arrives 1 ms later), `ser_getc` terminates the
run with the fatal "Timeout" diagnostic. -/
theorem C1_zero_budget_counterexample :
    ((0 : Int) ≤ 0) ∧ ser_getc_refill 0 (some 1) [65] = .fatalTimeout :=
  ⟨le_refl 0, by decide⟩

/-- C1 (amended): deadline checks are disabled for every budget `<= 0`
(`timed_out` returns false no matter how much wall-clock time has passed),
and for every strictly negative budget the per-chunk readiness wait can
never fail with a timeout either: `poll` waits indefinitely, so the refill
step hangs, returns a byte, or fails with the no-data diagnostic — never
with the timeout diagnostic. (For a budget of exactly 0 the wait returns
immediately and can time out, see the counterexample.) -/
theorem C1_nonpositive_budget_no_timeout (t : Int) (tv now : Timeval)
    (avail : Option Nat) (incoming : List Nat) :
    (t ≤ 0 → timed_out t tv now = false) ∧
    (t < 0 → ser_getc_refill t avail incoming =
      (match avail, incoming with
       | none, _ => .hang
       | some _, [] => .fatalNoData
       | some _, _ :: _ => .ok (incoming.headI))) := by
  constructor
  · intro ht
    unfold timed_out
    rw [if_pos ht]
  · intro ht
    cases avail with
    | none => simp [ser_getc_refill, poll1, ht]
    | some d =>
      cases incoming with
      | nil => simp [ser_getc_refill, poll1, ht]
      | cons b bs => simp [ser_getc_refill, poll1, ht]

/-- Witness for C1: with a budget of -1 ms, the deadline check reports no
expiry a billion seconds later, and a refill whose byte arrives only after
an hour still succeeds instead of timing out. -/
theorem C1_nonpositive_budget_no_timeout_witness :
    timed_out (-1) ⟨0, 0⟩ ⟨1000000000, 999999⟩ = false ∧
    ser_getc_refill (-1) (some 3600000) [7] = .ok 7 := by
  have h := C1_nonpositive_budget_no_timeout (-1) ⟨0, 0⟩ ⟨1000000000, 999999⟩
    (some 3600000) [7]
  exact ⟨h.1 (by norm_num), by simpa using h.2 (by norm_num)⟩

/-! ## Claim C6 -/

/-- C6 as stated is false: the conversion `opt_timeout * 1000` is 32-bit
`int` arithmetic, so a positive budget of 3000000 ms (50 minutes) wraps
around and yields a deadline with a negative microsecond field lying more
than 21 minutes in the past, instead of `now + budget`. -/
theorem C6_overflow_counterexample :
    ((0 : Int) < 3000000) ∧
    timeout_init 3000000 ⟨1000, 0⟩ = ⟨1000, -1294967296⟩ ∧
    ¬(0 ≤ (timeout_init 3000000 (⟨1000, 0⟩ : Timeval)).usec) := by
  refine ⟨by norm_num, by decide, by decide⟩

/-- C6 (amended): for every positive budget such that the microsecond
conversion stays within a 32-bit `int` even after the current sub-second
microseconds are added (`budget * 1000 <= 2146483647`, i.e. budgets up to
about 35.7 minutes), `timeout_init` returns exactly `now + budget` with the
microsecond field correctly carried into the seconds field
(`0 <= usec < 1000000`); `timed_out` returns false whenever the budget is
`<= 0`, and otherwise returns true iff the current time strictly exceeds
the deadline (greater seconds, or equal seconds with greater
microseconds). -/
theorem C6_timeout_clock (t : Int) (now tv now' : Timeval)
    (h1 : 0 ≤ now.usec) (h2 : now.usec < 1000000) :
    (0 < t → t * 1000 ≤ 2146483647 →
      (0 ≤ (timeout_init t now).usec ∧ (timeout_init t now).usec < 1000000 ∧
        (timeout_init t now).sec * 1000000 + (timeout_init t now).usec =
          now.sec * 1000000 + now.usec + t * 1000)) ∧
    (t ≤ 0 → timed_out t tv now' = false) ∧
    (0 < t → (timed_out t tv now' = true ↔
      (tv.sec < now'.sec ∨ (now'.sec = tv.sec ∧ tv.usec < now'.usec)))) := by
  refine ⟨?_, ?_, ?_⟩
  · intro ht hbound
    have hw : wrap32 (t * 1000) = t * 1000 := by
      unfold wrap32
      rw [Int.emod_eq_of_lt (by omega) (by omega)]
      ring
    have hv : wrap32 (now.usec + t * 1000) = now.usec + t * 1000 := by
      unfold wrap32
      rw [Int.emod_eq_of_lt (by omega) (by omega)]
      ring
    unfold timeout_init
    rw [if_neg (by omega)]
    simp only [hw, hv]
    by_cases hc : (1000000 : Int) ≤ now.usec + t * 1000
    · rw [if_pos hc]
      have hu0 : (0 : Int) ≤ now.usec + t * 1000 := by omega
      refine ⟨Int.tmod_nonneg _ hu0, Int.tmod_lt_of_pos _ (by norm_num), ?_⟩
      have hdm := Int.tdiv_add_tmod (now.usec + t * 1000) 1000000
      dsimp only
      linarith [hdm]
    · rw [if_neg hc]
      dsimp only
      refine ⟨by omega, by omega, by ring⟩
  · intro ht
    unfold timed_out
    rw [if_pos ht]
  · intro ht
    unfold timed_out
    rw [if_neg (by omega)]
    simp [gt_iff_lt]

/-- Witness for C6: the default budget of 2000 ms started at
100 s + 999999 us carries into ⟨102, 999999⟩ = now + 2000 ms exactly, and
a -5 ms budget never expires. -/
theorem C6_timeout_clock_witness :
    (0 : Int) ≤ (999999 : Int) ∧ (999999 : Int) < 1000000 ∧
    0 ≤ (timeout_init 2000 ⟨100, 999999⟩).usec ∧
    (timeout_init 2000 ⟨100, 999999⟩).usec < 1000000 ∧
    (timeout_init 2000 ⟨100, 999999⟩).sec * 1000000 +
      (timeout_init 2000 ⟨100, 999999⟩).usec =
      100 * 1000000 + 999999 + 2000 * 1000 ∧
    timed_out (-5) ⟨0, 0⟩ ⟨7, 7⟩ = false := by
  have h := C6_timeout_clock 2000 ⟨100, 999999⟩ ⟨0, 0⟩ ⟨7, 7⟩
    (by norm_num) (by norm_num)
  have h' := C6_timeout_clock (-5) ⟨100, 999999⟩ ⟨0, 0⟩ ⟨7, 7⟩
    (by norm_num) (by norm_num)
  obtain ⟨ha, hb, hcc⟩ := h.1 (by norm_num) (by norm_num)
  exact ⟨by norm_num, by norm_num, ha, hb, by simpa using hcc,
    h'.2.1 (by norm_num)⟩

/-! ## Claim C2 -/

/-- C2 (confirmed): whenever read_line reports `PromptReached`, the
CR-stripped content of the consumed stream prefix is the first accumulation
that matches the prompt — every shorter nonempty accumulation fails the
test — and the matched prefix is discarded, never returned as a line;
conversely, every completed line the caller does receive never matched the
prompt at any accumulation step, so a matched prefix is never handed back
as a completed line. -/
theorem C2_prompt_at_first_match (P : List Nat → Bool) (S : List Nat) :
    (∀ rest, ser_readline P [] S = .promptReached rest →
      ∃ pre, S = pre ++ rest ∧ stripCR pre ≠ [] ∧
        P (stripCR pre) = true ∧
        ∀ q, q <+: pre → q ≠ pre → stripCR q ≠ [] → P (stripCR q) = false) ∧
    (∀ l rest, ser_readline P [] S = .completedLine l rest →
      ∀ k, 1 ≤ k → k ≤ l.length → P (l.take k) = false) := by
  constructor
  · intro rest h
    obtain ⟨pre, hS, hne, hP, hq⟩ := ser_readline_prompt_inv P S [] rest h
    exact ⟨pre, hS, hne, by simpa using hP,
      fun q a b c => by simpa using hq q a b c⟩
  · intro l rest h k hk1 hk2
    obtain ⟨pre, _, _, hl, _, _, hq, _⟩ := ser_readline_line_inv P S [] l rest h
    have hl' : l = stripCR pre := by simpa using hl
    subst hl'
    simpa using hq k hk1 hk2

/-- Witness for C2: on the stream "hi\n" with the default prompt, the
completed line "hi\n" is returned and the accumulated line never matched
the prompt. -/
theorem C2_prompt_at_first_match_witness :
    ser_readline default_prompt_matches [] [104, 105, 10] =
      .completedLine [104, 105, 10] [] ∧
    default_prompt_matches (([104, 105, 10] : List Nat).take 3) = false := by
  refine ⟨by decide, ?_⟩
  exact (C2_prompt_at_first_match default_prompt_matches [104, 105, 10]).2
    [104, 105, 10] [] (by decide) 3 (by norm_num) (by norm_num)

/-! ## Claim C7 -/

/-- C7 (confirmed): every completed line read_line returns ends with its
trailing newline byte, and the prompt test ran after that newline was
appended and stored — the returned line failed it (had it matched,
`PromptReached` would have been signalled instead, as the second conjunct
shows for a newline byte arriving at any accumulator state). -/
theorem C7_newline_kept_prompt_after_append (P : List Nat → Bool)
    (S l rest acc : List Nat) :
    (ser_readline P [] S = .completedLine l rest →
      l.getLast? = some 10 ∧ P l = false) ∧
    (¬(LINE_SIZE - 1 ≤ acc.length) → P (acc ++ [10]) = true →
      ser_readline P acc (10 :: S) = .promptReached S) := by
  constructor
  · intro h
    obtain ⟨pre, _, hne, hl, hlast, _, hq, _⟩ :=
      ser_readline_line_inv P S [] l rest h
    have hl' : l = stripCR pre := by simpa using hl
    subst hl'
    refine ⟨hlast, ?_⟩
    have := hq (stripCR pre).length (List.length_pos.mpr hne) le_rfl
    simpa using this
  · intro hlen hP
    rw [ser_readline, if_neg (by norm_num), if_neg hlen, if_pos hP]

/-- Witness for C7: with the prompt pattern "h\n" (bytes 104 10), the
stream "hi\n" yields the completed line "hi\n" — trailing newline intact,
prompt test failed on it — while from the accumulator "h" the newline byte
itself triggers `PromptReached` instead of completing the line. -/
theorem C7_newline_kept_prompt_after_append_witness :
    ser_readline (fun l => l == [104, 10]) [] [104, 105, 10] =
      .completedLine [104, 105, 10] [] ∧
    ([104, 105, 10] : List Nat).getLast? = some 10 ∧
    (fun l => l == [104, 10]) [104, 105, 10] = false ∧
    ser_readline (fun l => l == [104, 10]) [104] [10] = .promptReached [] := by
  have h := C7_newline_kept_prompt_after_append (fun l => l == [104, 10])
    [104, 105, 10] [104, 105, 10] [] [104]
  have h2 := C7_newline_kept_prompt_after_append (fun l => l == [104, 10])
    [] [104, 105, 10] [] [104]
  exact ⟨by decide, (h.1 (by decide)).1, (h.1 (by decide)).2,
    h2.2 (by decide) (by decide)⟩

/-! ## Claim C8 -/

/-- C8 (confirmed): carriage returns are discarded before storage — no
completed line ever contains one, and deleting every carriage return from
the incoming stream changes neither the kind of result read_line produces
nor the line it returns, so CRs neither take part in prompt matching nor
count toward the maximum line length. -/
theorem C8_carriage_returns_discarded (P : List Nat → Bool) (S : List Nat) :
    (∀ l rest, ser_readline P [] S = .completedLine l rest →
      (13 : Nat) ∉ l) ∧
    dropRest (ser_readline P [] S) =
      dropRest (ser_readline P [] (stripCR S)) := by
  constructor
  · intro l rest h hmem
    obtain ⟨pre, _, _, hl, _, _, _, _⟩ := ser_readline_line_inv P S [] l rest h
    have hl' : l = stripCR pre := by simpa using hl
    rw [hl'] at hmem
    exact not_cr_of_mem_stripCR hmem rfl
  · exact ser_readline_stripCR P S []

/-- Witness for C8: the stream "h\r i\n" (CR inside) produces the same
completed line "hi\n" as its CR-free version. -/
theorem C8_carriage_returns_discarded_witness :
    ser_readline default_prompt_matches [] [104, 13, 105, 10] =
      .completedLine [104, 105, 10] [] ∧
    dropRest (ser_readline default_prompt_matches [] [104, 13, 105, 10]) =
      dropRest (ser_readline default_prompt_matches []
        (stripCR [104, 13, 105, 10])) :=
  ⟨by decide,
    (C8_carriage_returns_discarded default_prompt_matches [104, 13, 105, 10]).2⟩

/-! ## Claim C10 -/

/-- C10 (confirmed): the command string built by join_words ends in a
newline, and a completed line contains a newline only as its final byte, so
the echo-wait substring test `strstr(line, cmd)` succeeds exactly when the
whole command string (newline included) is a suffix of the line; command
text followed by anything else before the line's newline never matches. -/
theorem C10_echo_substring_iff_ends_with (P : List Nat → Bool)
    (S l rest : List Nat) (words : List (List Nat))
    (h : ser_readline P [] S = .completedLine l rest) :
    (join_words words <:+: l ↔ join_words words <:+ l) := by
  obtain ⟨pre, _, _, hl, hlast, hnl, _, _⟩ :=
    ser_readline_line_inv P S [] l rest h
  have hl' : l = stripCR pre := by simpa using hl
  subst hl'
  have hbody : stripCR pre = (stripCR pre).dropLast ++ [10] :=
    (List.dropLast_append_getLast? 10 hlast).symm
  rw [hbody]
  unfold join_words
  exact infix_iff_suffix_newline (joinW words) ((stripCR pre).dropLast) hnl

/-- Witness for C10: the echoed line "Xreset\n" contains "reset\n" only as
a suffix, so the substring test and the ends-with test agree on it. -/
theorem C10_echo_substring_iff_ends_with_witness :
    ser_readline default_prompt_matches [] [88, 114, 101, 115, 101, 116, 10] =
      .completedLine [88, 114, 101, 115, 101, 116, 10] [] ∧
    (join_words [[114, 101, 115, 101, 116]] <:+:
        ([88, 114, 101, 115, 101, 116, 10] : List Nat) ↔
      join_words [[114, 101, 115, 101, 116]] <:+
        ([88, 114, 101, 115, 101, 116, 10] : List Nat)) :=
  ⟨by decide,
    C10_echo_substring_iff_ends_with default_prompt_matches
      [88, 114, 101, 115, 101, 116, 10] [88, 114, 101, 115, 101, 116, 10] []
      [[114, 101, 115, 101, 116]] (by decide)⟩

/-! ## Claim C4 -/

/-- Every line the response collector has printed when it stops with the
"Line too long" diagnostic is a complete, within-cap line: no part of the
overlong line itself was printed. -/
theorem responsePhase_tooLong_outputs (P : List Nat → Bool)
    (tmo : Nat → Bool) :
    ∀ (fuel : Nat) (S : List Nat) (k : Nat) (out : List (List Nat)),
      responsePhase P tmo fuel S k = (some .lineTooLong, out) →
      ∀ l ∈ out, l.length + 1 ≤ LINE_SIZE ∧ l.getLast? = some 10 := by
  intro fuel
  induction fuel with
  | zero =>
    intro S k out h
    simp [responsePhase] at h
  | succ f ih =>
    intro S k out h l hl
    rw [responsePhase] at h
    cases hr : ser_readline P [] S with
    | promptReached r =>
      rw [hr] at h
      simp at h
    | fatalTooLong =>
      rw [hr] at h
      simp at h
      subst h
      simp at hl
    | fatalNoData =>
      rw [hr] at h
      simp at h
    | completedLine lc rest =>
      rw [hr] at h
      dsimp only at h
      by_cases ht : tmo k = true
      · rw [if_pos ht] at h
        simp at h
      · rw [if_neg ht] at h
        rw [Prod.mk.injEq] at h
        obtain ⟨h1, h2⟩ := h
        rw [← h2] at hl
        rcases List.mem_cons.mp hl with rfl | htl
        · obtain ⟨pre, _, _, hlc, hlast, _, _, hfit⟩ :=
            ser_readline_line_inv P S [] l rest hr
          have hl' : l = stripCR pre := by simpa using hlc
          constructor
          · simp only [LINE_SIZE] at hfit ⊢
            omega
          · rw [hl']
            exact hlast
        · have hrec : responsePhase P tmo f rest (k + 1) =
              (some .lineTooLong, (responsePhase P tmo f rest (k + 1)).2) :=
            Prod.ext_iff.mpr ⟨h1, rfl⟩
          exact ih rest (k + 1) _ hrec l htl

/-- C4 (confirmed): a completed line always fits the line buffer — at most
`LINE_SIZE - 1` stored bytes, i.e. `LINE_SIZE` bytes counting the trailing
NUL — so lines whose retained bytes fit the cap are assembled without
error. A line that would need `LINE_SIZE` retained bytes (no newline and no
prompt match among the first `LINE_SIZE - 1` retained bytes, with a further
retained byte following) makes read_line fail fatally with "Line too long",
and the response collector then terminates with that diagnostic printing
nothing of the overlong line; every line printed before it was a complete,
within-cap line. -/
theorem C4_line_too_long (P : List Nat → Bool) (tmo : Nat → Bool)
    (S : List Nat) (k : Nat) :
    (∀ l rest, ser_readline P [] S = .completedLine l rest →
      l.length + 1 ≤ LINE_SIZE) ∧
    ((∀ j, 1 ≤ j → j ≤ LINE_SIZE - 1 → P ((stripCR S).take j) = false) →
      (10 : Nat) ∉ (stripCR S).take (LINE_SIZE - 1) →
      LINE_SIZE ≤ (stripCR S).length →
      ser_readline P [] S = .fatalTooLong) ∧
    (∀ fuel, ser_readline P [] S = .fatalTooLong →
      responsePhase P tmo (fuel + 1) S k = (some .lineTooLong, [])) ∧
    (∀ fuel out, responsePhase P tmo fuel S k = (some .lineTooLong, out) →
      ∀ l ∈ out, l.length + 1 ≤ LINE_SIZE ∧ l.getLast? = some 10) := by
  refine ⟨?_, ?_, ?_, ?_⟩
  · intro l rest h
    obtain ⟨pre, _, _, _, _, _, _, hfit⟩ := ser_readline_line_inv P S [] l rest h
    simp only [LINE_SIZE] at hfit ⊢
    omega
  · intro h1 h2 h3
    apply ser_readline_too_long P S []
    · simp [LINE_SIZE]
    · intro j hj1 hj2
      have := h1 j (by omega) hj2
      simpa using this
    · simpa using h2
    · simpa using h3
  · intro fuel h
    rw [responsePhase, h]
  · intro fuel out h
    exact responsePhase_tooLong_outputs P tmo fuel S k out h

/-- The default prompt never matches a run of letters `a`. -/
theorem default_prompt_all_a (m : Nat) :
    default_prompt_matches (List.replicate m 97) = false := by
  unfold default_prompt_matches
  rw [List.reverse_replicate]
  match m with
  | 0 => rfl
  | 1 => rfl
  | m + 2 =>
    rw [List.replicate_succ, List.replicate_succ]
    simp

/-- Witness for C4: a device line of 1024 letters `a` with no newline makes
read_line fail with "Line too long", and the response collector propagates
the diagnostic having printed nothing. -/
theorem C4_line_too_long_witness :
    ser_readline default_prompt_matches [] (List.replicate 1024 97) =
      .fatalTooLong ∧
    responsePhase default_prompt_matches (fun _ => false) 1
      (List.replicate 1024 97) 0 = (some .lineTooLong, []) := by
  have h := C4_line_too_long default_prompt_matches (fun _ => false)
    (List.replicate 1024 97) 0
  have hs : stripCR (List.replicate 1024 97) = List.replicate 1024 97 := by
    unfold stripCR
    rw [List.filter_replicate, if_pos (by decide)]
  have h1 : ser_readline default_prompt_matches [] (List.replicate 1024 97) =
      .fatalTooLong := by
    apply h.2.1
    · intro j hj1 hj2
      rw [hs, List.take_replicate]
      have hm : min j 1024 = j := by
        simp only [LINE_SIZE] at hj2
        omega
      rw [hm]
      exact default_prompt_all_a j
    · rw [hs, List.take_replicate]
      rw [List.mem_replicate]
      rintro ⟨-, h97⟩
      norm_num at h97
    · rw [hs, List.length_replicate, LINE_SIZE]
  exact ⟨h1, h.2.2.1 0 h1⟩

/-! ## Claim C9 -/

/-- C9 (confirmed): in the echo-wait loop the substring test on a completed
line is evaluated before the deadline check — a completed line containing
the command transitions to response collection even when every deadline
check already reports expiry — while "Command echo not found" arises on a
non-matching completed line only together with an expired deadline, and on
a `PromptReached` result unconditionally (before any deadline check, by
short-circuit). -/
theorem C9_echo_test_before_deadline (P : List Nat → Bool)
    (cmd S : List Nat) (tmo : Nat → Bool) (k fuel : Nat) :
    (∀ l rest, ser_readline P [] S = .completedLine l rest →
      cmd <:+: l →
      echoPhase P cmd (fun _ => true) (fuel + 1) S k = .found rest) ∧
    (∀ l rest, ser_readline P [] S = .completedLine l rest →
      ¬(cmd <:+: l) → tmo k = true →
      echoPhase P cmd tmo (fuel + 1) S k = .notFound) ∧
    (∀ rest, ser_readline P [] S = .promptReached rest →
      echoPhase P cmd tmo (fuel + 1) S k = .notFound) := by
  refine ⟨?_, ?_, ?_⟩
  · intro l rest h hin
    rw [echoPhase, h]
    dsimp only
    rw [if_pos hin]
  · intro l rest h hin ht
    rw [echoPhase, h]
    dsimp only
    rw [if_neg hin, if_pos ht]
  · intro rest h
    rw [echoPhase, h]

/-- Witness for C9: the first line "a\n" contains the command "a\n", so
even with a deadline oracle that reports expiry at every check the session
moves on to response collection. -/
theorem C9_echo_test_before_deadline_witness :
    ser_readline (fun _ => false) [] [97, 10, 98] =
      .completedLine [97, 10] [98] ∧
    echoPhase (fun _ => false) [97, 10] (fun _ => true) 1 [97, 10, 98] 0 =
      .found [98] := by
  have h := C9_echo_test_before_deadline (fun _ => false) [97, 10] [97, 10, 98]
    (fun _ => true) 0 0
  exact ⟨by decide, h.1 [97, 10] [98] (by decide) (List.infix_refl _)⟩

/-! ## Claim C5 -/

/-- C5 (confirmed): while every attempt fails for a busy/would-block reason
(EBUSY or EAGAIN) and the deadline has not expired, acquisition keeps
retrying, sleeping RETRY_MS = 200 ms before each retry; it succeeds at the
first attempt where the open (and, without force, the lock) goes through,
having slept exactly 200 ms per failed attempt. If a busy failure is met
after the deadline expired, acquisition fails (non-zero exit). With force
set, the flock results are never consulted at all, and the first successful
open ends acquisition immediately. -/
theorem C5_busy_retry (tmo : Nat → Bool) (openR lockR : Nat → Option Nat)
    (j fuel : Nat)
    (hbusy : ∀ i, i < j → ∃ e, attempt_err false openR lockR i = some e ∧
      (e = EBUSY ∨ e = EAGAIN))
    (htmo : ∀ i, i < j → tmo i = false)
    (hfuel : j < fuel) :
    (attempt_err false openR lockR j = none →
      ser_open_loop false tmo openR lockR fuel 0 0 =
        .success j (j * RETRY_MS)) ∧
    ((∃ e, attempt_err false openR lockR j = some e ∧
        (e = EBUSY ∨ e = EAGAIN)) →
      tmo j = true →
      ∃ e, ser_open_loop false tmo openR lockR fuel 0 0 = .fatal e) ∧
    (∀ lockR' fuel' k' s',
      ser_open_loop true tmo openR lockR fuel' k' s' =
        ser_open_loop true tmo openR lockR' fuel' k' s') ∧
    (openR 0 = none →
      ser_open_loop true tmo openR lockR fuel 0 0 = .success 0 0) := by
  have hshift := ser_open_loop_busy_shift tmo openR lockR j 0 0 fuel
    (fun i hi => by simpa using hbusy i hi)
    (fun i hi => by simpa using htmo i hi) hfuel
  simp only [Nat.zero_add] at hshift
  refine ⟨?_, ?_, ?_, ?_⟩
  · intro hnone
    rw [hshift]
    obtain ⟨f, hf⟩ : ∃ f, fuel - j = f + 1 := ⟨fuel - j - 1, by omega⟩
    rw [hf, ser_open_loop, hnone]
  · rintro ⟨e, he, hbe⟩ ht
    rw [hshift]
    obtain ⟨f, hf⟩ : ∃ f, fuel - j = f + 1 := ⟨fuel - j - 1, by omega⟩
    rw [hf, ser_open_loop, he]
    dsimp only
    rw [if_pos (by simp [ht])]
    exact ⟨e, rfl⟩
  · intro lockR' fuel' k' s'
    exact ser_open_loop_force_no_flock tmo openR lockR lockR' fuel' k' s'
  · intro hopen
    obtain ⟨f, hf⟩ : ∃ f, fuel = f + 1 := ⟨fuel - 1, by omega⟩
    rw [hf, ser_open_loop]
    simp [attempt_err, hopen]

/-- Witness for C5: the first open attempt fails with EBUSY before the
deadline, the second succeeds; the loop succeeds at attempt 1 having slept
exactly one 200 ms interval. -/
theorem C5_busy_retry_witness :
    ser_open_loop false (fun _ => false)
      (fun n => if n = 0 then some EBUSY else none) (fun _ => none)
      3 0 0 = .success 1 200 := by
  have h := C5_busy_retry (fun _ => false)
    (fun n => if n = 0 then some EBUSY else none) (fun _ => none) 1 3
    (fun i hi => by
      have hi0 : i = 0 := by omega
      subst hi0
      exact ⟨EBUSY, rfl, Or.inl rfl⟩)
    (fun i _ => rfl)
    (by norm_num)
  have := h.1 rfl
  simpa [RETRY_MS] using this

/-! ## Claim C3 -/

/-- C3 (confirmed): with command words `["reset"]` — so the command string
is "reset\n" — and a device stream that is exactly the echo "reset\n",
then "OK\n", then a chunk whose first matching point against the default
prompt pattern comes at byte `k` (CR-free, no earlier newline), the session
ends successfully (exit status 0) and prints exactly the line "OK\n" to
standard output, nothing else. The deadline oracles are arbitrary except
for the single response-phase check actually reached, which must not have
expired. -/
theorem C3_reset_roundtrip (to1 to2 : Nat → Bool) (L : List Nat)
    (k fuel : Nat)
    (hf : 2 ≤ fuel)
    (hto : to2 0 = false)
    (hk1 : 1 ≤ k) (hkL : k ≤ L.length) (hkmax : k ≤ LINE_SIZE - 1)
    (hm : default_prompt_matches (L.take k) = true)
    (hfirst : ∀ j, 1 ≤ j → j < k → default_prompt_matches (L.take j) = false)
    (hNL : (10 : Nat) ∉ L.take (k - 1))
    (hCR : (13 : Nat) ∉ L.take k) :
    session_run default_prompt_matches
      (join_words [[114, 101, 115, 101, 116]]) to1 to2 fuel
      ([114, 101, 115, 101, 116, 10] ++ ([79, 75, 10] ++ L)) =
      (none, [[79, 75, 10]]) := by
  obtain ⟨f, rfl⟩ : ∃ f, fuel = f + 2 := ⟨fuel - 2, by omega⟩
  have hcmd : join_words [[114, 101, 115, 101, 116]] =
      [114, 101, 115, 101, 116, 10] := rfl
  have h1 : ser_readline default_prompt_matches []
      ([114, 101, 115, 101, 116, 10] ++ ([79, 75, 10] ++ L)) =
      .completedLine [114, 101, 115, 101, 116, 10] ([79, 75, 10] ++ L) := by
    have := ser_readline_completes default_prompt_matches
      [114, 101, 115, 101, 116, 10] [] ([79, 75, 10] ++ L)
      (by decide) (by decide) (by decide) (by decide)
      (by
        intro k' hka hkb
        simp only [List.length_cons, List.length_nil] at hkb
        interval_cases k' <;> decide)
    simpa using this
  have h2 : ser_readline default_prompt_matches [] ([79, 75, 10] ++ L) =
      .completedLine [79, 75, 10] L := by
    have := ser_readline_completes default_prompt_matches
      [79, 75, 10] [] L (by decide) (by decide) (by decide) (by decide)
      (by
        intro k' hka hkb
        simp only [List.length_cons, List.length_nil] at hkb
        interval_cases k' <;> decide)
    simpa using this
  have hlen_take : (L.take k).length = k := by
    rw [List.length_take]
    omega
  have h3 : ser_readline default_prompt_matches [] L =
      .promptReached (L.drop k) := by
    have := ser_readline_prompts default_prompt_matches (L.take k) []
      (L.drop k)
      (by
        intro hemp
        rw [hemp] at hlen_take
        simp at hlen_take
        omega)
      hCR
      (by
        rw [List.dropLast_eq_take, hlen_take, List.take_take]
        intro hmem
        apply hNL
        have hmin : min (k - 1) k = k - 1 := by omega
        rw [hmin] at hmem
        exact hmem)
      (by
        rw [hlen_take]
        simpa using hkmax)
      (by simpa using hm)
      (by
        intro j hj1 hj2
        rw [hlen_take] at hj2
        rw [List.take_take]
        have hmin : min j k = j := by omega
        rw [hmin]
        simpa using hfirst j hj1 hj2)
    rw [List.take_append_drop] at this
    exact this
  have hE : echoPhase default_prompt_matches
      (join_words [[114, 101, 115, 101, 116]]) to1 (f + 2)
      ([114, 101, 115, 101, 116, 10] ++ ([79, 75, 10] ++ L)) 0 =
      .found ([79, 75, 10] ++ L) := by
    rw [show f + 2 = (f + 1) + 1 from rfl, echoPhase, h1]
    dsimp only
    rw [hcmd, if_pos (List.infix_refl _)]
  have hR2 : responsePhase default_prompt_matches to2 (f + 1) L 1 =
      (none, []) := by
    obtain ⟨g, rfl⟩ : ∃ g, f = g := ⟨f, rfl⟩
    rw [responsePhase, h3]
  have hR : responsePhase default_prompt_matches to2 (f + 2)
      ([79, 75, 10] ++ L) 0 = (none, [[79, 75, 10]]) := by
    rw [show f + 2 = (f + 1) + 1 from rfl, responsePhase, h2]
    dsimp only
    rw [if_neg (by simp [hto]), hR2]
  unfold session_run
  rw [hE]
  exact hR

/-- Witness for C3: the concrete device stream "reset\nOK\n$ " with the
default prompt: the run exits 0 printing exactly "OK\n". -/
theorem C3_reset_roundtrip_witness :
    session_run default_prompt_matches
      (join_words [[114, 101, 115, 101, 116]]) (fun _ => false)
      (fun _ => false) 2
      ([114, 101, 115, 101, 116, 10] ++ ([79, 75, 10] ++ [36, 32])) =
      (none, [[79, 75, 10]]) := by
  apply C3_reset_roundtrip (fun _ => false) (fun _ => false) [36, 32] 2 2
    (le_refl 2) rfl (by norm_num) (by norm_num) (by decide) (by decide)
  · intro j hj1 hj2
    interval_cases j
    decide
  · decide
  · decide

end Mcuxeq
